import Mathlib

/-!
Verification of the raw TCP listener of the `gor` traffic-cloning repository
(`src/listener/raw_tcp_listener.go`), embedded shallowly: the capture filter of
`readRAWSocket`, the dispatcher loop `listen` / `processTCPPacket` over the
message table, the startup sequence `startSniffer`, and the per-message
reassembly unit `TCPMessage` (whose file `tcp_message.go` is not in the source
tree and is therefore modelled from the specification).
-/

namespace Gor

/-- The fields of the pcap TCP header (`pcap.Tcphdr`) read by the listener:
source/destination port, flag bits, acknowledgment and sequence numbers.
Machine integers are embedded as `Nat` (the listener only compares them for
equality and masks flag bits, so no overflow arises). -/
structure Tcphdr where
  SrcPort : Nat
  DestPort : Nat
  Flags : Nat
  Ack : Nat
  Seq : Nat
  deriving Repr, DecidableEq

/-- The `pcap.TCP_PSH` flag bit. -/
def TCP_PSH : Nat := 8

/-- One decoded protocol header of a packet: either a TCP header
(`*pcap.Tcphdr`) or a header of some other layer type. -/
inductive Header where
  | tcp (h : Tcphdr)
  | other
  deriving Repr, DecidableEq

/-- A decoded pcap packet: its list of decoded protocol headers and its
payload bytes (embedded as a `String`, matching how payloads are compared in
the specification scenarios). -/
structure Packet where
  Headers : List Header
  Payload : String
  deriving Repr, DecidableEq

/-- The enqueue decision of `readRAWSocket` for one decoded packet: the packet
is sent on the capture queue `c_packets` iff it has at least two decoded
headers, the second header is a TCP header, its destination port equals the
listener's configured port, and its PSH flag is set; every other packet is
skipped by `continue` with no output. -/
def readRAWSocketEmits (port : Nat) (pkt : Packet) : Bool :=
  if pkt.Headers.length < 2 then false
  else
    match pkt.Headers[1]? with
    | some (Header.tcp h) => (h.DestPort == port) && ((h.Flags &&& TCP_PSH) != 0)
    | _ => false

/-- The Ack extraction performed by `processTCPPacket`: the type assertion
`packet.Headers[1].(*pcap.Tcphdr)` followed by reading `.Ack`. In Go the
assertion is unchecked and would panic if the second header were not a TCP
header; the embedding returns `none` in that case. -/
def packetAck (pkt : Packet) : Option Nat :=
  match pkt.Headers[1]? with
  | some (Header.tcp h) => some h.Ack
  | _ => none

/-- The PSH test on a packet's TCP header, as evaluated on the packets that
reach the dispatcher (second header is TCP). -/
def packetPush (pkt : Packet) : Bool :=
  match pkt.Headers[1]? with
  | some (Header.tcp h) => (h.Flags &&& TCP_PSH) != 0
  | _ => false

/-- C2: a decoded packet whose second header is a TCP header is placed on the
capture queue by `readRAWSocket` iff its destination port equals the
configured port and its PSH flag is set. -/
theorem readRAWSocket_filter_iff (port : Nat) (pkt : Packet) (h : Tcphdr)
    (hh : pkt.Headers[1]? = some (Header.tcp h)) :
    readRAWSocketEmits port pkt = true ↔
      (h.DestPort = port ∧ h.Flags &&& TCP_PSH ≠ 0) := by
  have hlen : ¬ pkt.Headers.length < 2 := by
    intro hlt
    have : pkt.Headers[1]? = none := by
      apply List.getElem?_eq_none
      omega
    rw [this] at hh
    exact Option.noConfusion hh
  unfold readRAWSocketEmits
  rw [if_neg hlen, hh]
  simp [Bool.and_eq_true, beq_iff_eq, bne_iff_ne]

/-- Witness for C2: a concrete packet with destination port 80 and PSH set is
emitted. -/
theorem readRAWSocket_filter_iff_witness :
    readRAWSocketEmits 80
      ⟨[Header.other, Header.tcp ⟨1000, 80, 8, 42, 0⟩], "x"⟩ = true := by
  rw [readRAWSocket_filter_iff 80 ⟨[Header.other, Header.tcp ⟨1000, 80, 8, 42, 0⟩], "x"⟩
    ⟨1000, 80, 8, 42, 0⟩ rfl]
  constructor
  · rfl
  · decide

/-- C9: every packet that `readRAWSocket` places on the capture queue has at
least two decoded headers and its second header is a TCP header, so the
unchecked type assertion and the `Ack` access in `processTCPPacket` succeed on
every packet arriving on that queue. -/
theorem capture_queue_packets_have_tcp_header (port : Nat) (pkt : Packet)
    (hemit : readRAWSocketEmits port pkt = true) :
    2 ≤ pkt.Headers.length ∧
      ∃ h : Tcphdr, pkt.Headers[1]? = some (Header.tcp h) ∧
        packetAck pkt = some h.Ack := by
  unfold readRAWSocketEmits at hemit
  by_cases hlen : pkt.Headers.length < 2
  · rw [if_pos hlen] at hemit
    exact Bool.noConfusion hemit
  · refine ⟨by omega, ?_⟩
    rw [if_neg hlen] at hemit
    cases hh : pkt.Headers[1]? with
    | none => rw [hh] at hemit; exact Bool.noConfusion hemit
    | some hd =>
      cases hd with
      | other => rw [hh] at hemit; exact Bool.noConfusion hemit
      | tcp h =>
        refine ⟨h, rfl, ?_⟩
        unfold packetAck
        rw [hh]

/-- Witness for C9: the conclusion holds at a concrete emitted packet. -/
theorem capture_queue_packets_have_tcp_header_witness :
    2 ≤ ([Header.other, Header.tcp ⟨1000, 80, 8, 42, 0⟩] : List Header).length ∧
      ∃ h : Tcphdr,
        (Packet.mk [Header.other, Header.tcp ⟨1000, 80, 8, 42, 0⟩] "x").Headers[1]? =
          some (Header.tcp h) ∧
        packetAck ⟨[Header.other, Header.tcp ⟨1000, 80, 8, 42, 0⟩], "x"⟩ = some h.Ack :=
  capture_queue_packets_have_tcp_header 80
    ⟨[Header.other, Header.tcp ⟨1000, 80, 8, 42, 0⟩], "x"⟩ (by decide)

/-- The disposition of a reassembly unit: `Building` while packets are being
accumulated, `Completed` once a push-flagged packet was appended, `Expired`
once the inactivity watchdog fired first. -/
inductive MsgStatus where
  | Building
  | Completed
  | Expired
  deriving Repr, DecidableEq

/-- Modelled from the spec: `tcp_message.go` is not under the source tree (only
`raw_tcp_listener.go` is), so the TCPMessage reassembly unit follows §4.4 of
the specification: it holds its FlowKey (`Ack`), an ordered payload buffer, a
completion/expiry status, and an `emitted` flag recording whether its
disposition has already been reported on its private channel. -/
structure TCPMessage where
  Ack : Nat
  buffer : String
  status : MsgStatus
  emitted : Bool
  deriving Repr, DecidableEq

/-- Modelled from the spec: `NewTCPMessage` (from the missing
`tcp_message.go`) creates a fresh reassembly unit for a FlowKey with an empty
buffer, still building, with no disposition reported yet. -/
def NewTCPMessage (ack : Nat) : TCPMessage :=
  ⟨ack, "", MsgStatus.Building, false⟩

/-- The two events a TCPMessage reacts to: the arrival of a packet routed to
it (`append`, carrying the payload and whether the push flag is set) and the
firing of its inactivity watchdog (`expire`). -/
inductive MsgEvent where
  | append (payload : String) (push : Bool)
  | expire
  deriving Repr, DecidableEq

/-- Modelled from the spec: the TCPMessage transition of the missing
`tcp_message.go`, per §4.4 and §9: `append` adds the payload to the buffer and,
if the packet carries the push flag, marks the message `Completed` and emits its
disposition; the watchdog `expire` marks it `Expired` and emits; the internal
completed/expired flag is checked before emitting, so both terminal states
accept no further transition and never emit again. Returns the new message
state and whether this event emitted the disposition. -/
def TCPMessage.step (m : TCPMessage) (e : MsgEvent) : TCPMessage × Bool :=
  match e with
  | MsgEvent.append payload push =>
    if m.status = MsgStatus.Building then
      if push then
        ({ m with buffer := m.buffer ++ payload,
                  status := MsgStatus.Completed, emitted := true }, true)
      else
        ({ m with buffer := m.buffer ++ payload }, false)
    else
      (m, false)
  | MsgEvent.expire =>
    if m.status = MsgStatus.Building then
      ({ m with status := MsgStatus.Expired, emitted := true }, true)
    else
      (m, false)

/-- Run a TCPMessage over a sequence of events, counting how many of the
events emitted the disposition. -/
def TCPMessage.run (m : TCPMessage) : List MsgEvent → TCPMessage × Nat
  | [] => (m, 0)
  | e :: es =>
    let se := m.step e
    let r := se.1.run es
    (r.1, (if se.2 then 1 else 0) + r.2)

/-- The internal consistency of a TCPMessage: the disposition has been emitted
exactly when the message has left the `Building` state. -/
def TCPMessage.wf (m : TCPMessage) : Prop :=
  m.emitted = decide (m.status ≠ MsgStatus.Building)

/-- A step from a consistent message stays consistent and emits exactly when
the `emitted` flag flips from `false` to `true`. -/
theorem TCPMessage.step_wf (m : TCPMessage) (e : MsgEvent) (hm : m.wf) :
    (m.step e).1.wf ∧
      ((if m.emitted then 1 else 0) + (if (m.step e).2 then 1 else 0)
        = if (m.step e).1.emitted then 1 else 0) := by
  unfold TCPMessage.wf at hm ⊢
  cases e with
  | append payload push =>
    by_cases hb : m.status = MsgStatus.Building
    · cases push with
      | true => simp [TCPMessage.step, hb, hm]
      | false => simp [TCPMessage.step, hb, hm]
    · simp [TCPMessage.step, hb, hm]
  | expire =>
    by_cases hb : m.status = MsgStatus.Building
    · simp [TCPMessage.step, hb, hm]
    · simp [TCPMessage.step, hb, hm]

/-- Over any event sequence, a consistent message's emission count equals the
flip of its `emitted` flag. -/
theorem TCPMessage.run_emit_count (es : List MsgEvent) (m : TCPMessage)
    (hm : m.wf) :
    ((m.run es).1.wf ∧
      (if m.emitted then 1 else 0) + (m.run es).2
        = if (m.run es).1.emitted then 1 else 0) := by
  induction es generalizing m with
  | nil => exact ⟨hm, by simp [TCPMessage.run]⟩
  | cons e es ih =>
    have hstep := TCPMessage.step_wf m e hm
    have hrec := ih (m.step e).1 hstep.1
    refine ⟨by simpa [TCPMessage.run] using hrec.1, ?_⟩
    show (if m.emitted then 1 else 0)
        + ((if (m.step e).2 then 1 else 0) + ((m.step e).1.run es).2) = _
    rw [← Nat.add_assoc, hstep.2, hrec.2]
    rfl

/-- C5: starting from a fresh TCPMessage, any sequence of append/expire events
emits the disposition at most once (so whichever of completion or expiry comes
first wins and the later path emits nothing), the disposition is emitted
exactly once as soon as the message has left `Building`, and both `Completed`
and `Expired` are terminal: a message outside `Building` is left unchanged by
every further event. -/
theorem tcpMessage_disposition_exactly_once (ack : Nat) (es : List MsgEvent) :
    ((NewTCPMessage ack).run es).2 ≤ 1 ∧
      (((NewTCPMessage ack).run es).1.status ≠ MsgStatus.Building →
        ((NewTCPMessage ack).run es).2 = 1) ∧
      (∀ m : TCPMessage, m.status ≠ MsgStatus.Building →
        ∀ e : MsgEvent, (m.step e).1 = m ∧ (m.step e).2 = false) := by
  have hwf : (NewTCPMessage ack).wf := rfl
  have h := TCPMessage.run_emit_count es (NewTCPMessage ack) hwf
  have hemit : (NewTCPMessage ack).emitted = false := rfl
  rw [hemit] at h
  simp only [Bool.false_eq_true, if_false, Nat.zero_add] at h
  have hcount : ((NewTCPMessage ack).run es).2
      = if ((NewTCPMessage ack).run es).1.emitted then 1 else 0 := h.2
  refine ⟨?_, ?_, ?_⟩
  · rw [hcount]
    split <;> omega
  · intro hterm
    rw [hcount]
    have hwf2 := h.1
    unfold TCPMessage.wf at hwf2
    rw [hwf2]
    simp [hterm]
  · intro m hterm e
    cases e with
    | append payload push => simp [TCPMessage.step, hterm]
    | expire => simp [TCPMessage.step, hterm]

/-- Witness for C5 (its statement quantifies over event sequences and contains
implications): at the concrete trace append-without-push, append-with-push,
expire, the disposition is emitted exactly once. -/
theorem tcpMessage_disposition_exactly_once_witness :
    ((NewTCPMessage 42).run
        [MsgEvent.append "a" false, MsgEvent.append "b" true,
         MsgEvent.expire]).2 ≤ 1 :=
  (tcpMessage_disposition_exactly_once 42
    [MsgEvent.append "a" false, MsgEvent.append "b" true, MsgEvent.expire]).1

/-- Lookup in the message table (the Go map `messages map[uint32]*TCPMessage`),
embedded as an association list keyed by acknowledgment number. -/
def tableLookup : List (Nat × TCPMessage) → Nat → Option TCPMessage
  | [], _ => none
  | (k, m) :: rest, ack => if k = ack then some m else tableLookup rest ack

/-- Map assignment `t.messages[ack] = message`: replace the binding for `ack`
if present, otherwise add it. -/
def tableSet : List (Nat × TCPMessage) → Nat → TCPMessage → List (Nat × TCPMessage)
  | [], ack, m => [(ack, m)]
  | (k, m0) :: rest, ack, m =>
    if k = ack then (k, m) :: rest else (k, m0) :: tableSet rest ack m

/-- Map deletion `delete(t.messages, ack)`: remove the binding for `ack`. -/
def tableDelete : List (Nat × TCPMessage) → Nat → List (Nat × TCPMessage)
  | [], _ => []
  | (k, m) :: rest, ack =>
    if k = ack then tableDelete rest ack else (k, m) :: tableDelete rest ack

/-- The keys bound in a table. -/
def tableKeys (tbl : List (Nat × TCPMessage)) : List Nat :=
  tbl.map Prod.fst

/-- The listener state touched by the `listen` event loop: the message table
and the outbound delivery queue `c_messages` (oldest delivered message
first). -/
structure ListenerState where
  messages : List (Nat × TCPMessage)
  c_messages : List TCPMessage
  deriving Repr, DecidableEq

/-- The state of a freshly constructed listener: empty message table, empty
delivery queue. -/
def initListenerState : ListenerState :=
  ⟨[], []⟩

/-- `processTCPPacket`: extract the Ack from the packet's TCP header, look it
up in the message table; if absent, create a fresh `TCPMessage` for that
FlowKey and register it; then route the packet to the message (the send on
`message.c_packets`, whose effect on the message is the spec-modelled
`TCPMessage.step` append). Returns the new state and, when the append caused
the message to report its disposition, that message (the future arrival on
`c_del_message`). A packet whose second header is not a TCP header leaves the
state unchanged (in Go the unchecked assertion would panic; such packets never
reach this function, see `capture_queue_packets_have_tcp_header`). -/
def processTCPPacket (s : ListenerState) (pkt : Packet) :
    ListenerState × Option TCPMessage :=
  match packetAck pkt with
  | none => (s, none)
  | some ack =>
    let message := match tableLookup s.messages ack with
      | some m => m
      | none => NewTCPMessage ack
    let se := message.step (MsgEvent.append pkt.Payload (packetPush pkt))
    ({ s with messages := tableSet s.messages ack se.1 },
     if se.2 then some se.1 else none)

/-- The two kinds of event the `listen` loop multiplexes over: a packet from
`c_packets` and a completed/expired message from `c_del_message`. -/
inductive ListenerEvent where
  | packet (pkt : Packet)
  | delMessage (m : TCPMessage)
  deriving Repr, DecidableEq

/-- One iteration of the `listen` select loop: a message on `c_del_message` is
forwarded to `c_messages` and its FlowKey deleted from the table; a packet on
`c_packets` goes through `processTCPPacket`. The second component is the
disposition signal emitted during the iteration, if any. -/
def listenStep (s : ListenerState) (e : ListenerEvent) :
    ListenerState × Option TCPMessage :=
  match e with
  | ListenerEvent.delMessage m =>
    ({ messages := tableDelete s.messages m.Ack,
       c_messages := s.c_messages ++ [m] }, none)
  | ListenerEvent.packet pkt => processTCPPacket s pkt

/-- Run the `listen` loop over a sequence of events. -/
def runListen (s : ListenerState) : List ListenerEvent → ListenerState
  | [] => s
  | e :: es => runListen (listenStep s e).1 es

/-- Keys after `tableSet` are the old keys when the key was already bound,
else the old keys with the new key appended. -/
theorem tableKeys_tableSet (tbl : List (Nat × TCPMessage)) (ack : Nat)
    (m : TCPMessage) :
    tableKeys (tableSet tbl ack m)
      = if ack ∈ tableKeys tbl then tableKeys tbl else tableKeys tbl ++ [ack] := by
  induction tbl with
  | nil => simp [tableSet, tableKeys]
  | cons p rest ih =>
    obtain ⟨k, m0⟩ := p
    by_cases hk : k = ack
    · subst hk
      simp [tableSet, tableKeys]
    · have h1 : tableSet ((k, m0) :: rest) ack m = (k, m0) :: tableSet rest ack m := by
        simp [tableSet, hk]
      have h2 : tableKeys ((k, m0) :: tableSet rest ack m)
          = k :: tableKeys (tableSet rest ack m) := rfl
      have h3 : tableKeys ((k, m0) :: rest) = k :: tableKeys rest := rfl
      rw [h1, h2, h3, ih]
      by_cases hmem : ack ∈ tableKeys rest
      · rw [if_pos hmem, if_pos (List.mem_cons_of_mem k hmem)]
      · rw [if_neg hmem, if_neg ?_]
        · rfl
        · intro hx
          rcases List.mem_cons.mp hx with h | h
          · exact hk h.symm
          · exact hmem h

/-- `tableDelete` removes every binding of the key. -/
theorem tableKeys_tableDelete (tbl : List (Nat × TCPMessage)) (ack : Nat) :
    tableKeys (tableDelete tbl ack) = (tableKeys tbl).filter (fun k => k ≠ ack) := by
  induction tbl with
  | nil => rfl
  | cons p rest ih =>
    obtain ⟨k, m0⟩ := p
    by_cases hk : k = ack
    · subst hk
      have h1 : tableDelete ((k, m0) :: rest) k = tableDelete rest k := by
        simp [tableDelete]
      rw [h1, ih]
      show _ = List.filter _ (k :: tableKeys rest)
      rw [List.filter_cons]
      simp
    · have h1 : tableDelete ((k, m0) :: rest) ack = (k, m0) :: tableDelete rest ack := by
        simp [tableDelete, hk]
      rw [h1]
      show k :: tableKeys (tableDelete rest ack) = List.filter _ (k :: tableKeys rest)
      rw [ih, List.filter_cons]
      simp [hk]

/-- A single `listen` iteration preserves distinctness of the table's keys. -/
theorem listenStep_keys_nodup (s : ListenerState) (e : ListenerEvent)
    (h : (tableKeys s.messages).Nodup) :
    (tableKeys (listenStep s e).1.messages).Nodup := by
  cases e with
  | delMessage m =>
    show (tableKeys (tableDelete s.messages m.Ack)).Nodup
    rw [tableKeys_tableDelete]
    exact h.filter _
  | packet pkt =>
    show (tableKeys (processTCPPacket s pkt).1.messages).Nodup
    unfold processTCPPacket
    cases hack : packetAck pkt with
    | none => exact h
    | some ack =>
      simp only
      rw [tableKeys_tableSet]
      by_cases hmem : ack ∈ tableKeys s.messages
      · rw [if_pos hmem]; exact h
      · rw [if_neg hmem]
        exact List.Nodup.append h (List.nodup_singleton ack)
          (by simpa using fun hx => hmem hx)

/-- C1: in every state of the listener reachable from construction through the
`listen` event loop, the message table binds each FlowKey (acknowledgment
number) at most once: `processTCPPacket` registers a fresh `TCPMessage` only
when the Ack has no entry and otherwise routes the packet to the existing
entry, so no two table entries ever share an Ack. -/
theorem message_table_keys_unique (es : List ListenerEvent) :
    (tableKeys (runListen initListenerState es).messages).Nodup := by
  suffices h : ∀ s : ListenerState, (tableKeys s.messages).Nodup →
      (tableKeys (runListen s es).messages).Nodup by
    exact h initListenerState (by simp [initListenerState, tableKeys])
  induction es with
  | nil => intro s hs; exact hs
  | cons e es ih =>
    intro s hs
    exact ih (listenStep s e).1 (listenStep_keys_nodup s e hs)

/-- After `tableDelete`, the deleted key has no binding, and every other key's
binding is unchanged. -/
theorem tableLookup_tableDelete (tbl : List (Nat × TCPMessage)) (ack k : Nat) :
    tableLookup (tableDelete tbl ack) k
      = if k = ack then none else tableLookup tbl k := by
  induction tbl with
  | nil => simp [tableDelete, tableLookup]
  | cons p rest ih =>
    obtain ⟨k0, m0⟩ := p
    by_cases h0 : k0 = ack
    · subst h0
      have h1 : tableDelete ((k0, m0) :: rest) k0 = tableDelete rest k0 := by
        simp [tableDelete]
      rw [h1, ih]
      by_cases hk : k = k0
      · simp [hk]
      · have h3 : k0 ≠ k := fun h => hk h.symm
        simp [hk, tableLookup, h3]
    · have h1 : tableDelete ((k0, m0) :: rest) ack = (k0, m0) :: tableDelete rest ack := by
        simp [tableDelete, h0]
      rw [h1]
      by_cases h2 : k0 = k
      · subst h2
        simp [tableLookup, h0]
      · simp [tableLookup, h2, ih]

/-- C4: when the `listen` loop services a message that announced itself as
completed or expired on `c_del_message`, it appends that message to the
outbound delivery queue `c_messages` (the channel `Receive` reads) and removes
the binding for the message's FlowKey from the table, leaving every other
FlowKey's binding untouched. -/
theorem listen_finalized_delivered_and_evicted (s : ListenerState)
    (m : TCPMessage) :
    (listenStep s (ListenerEvent.delMessage m)).1.c_messages
        = s.c_messages ++ [m] ∧
      tableLookup (listenStep s (ListenerEvent.delMessage m)).1.messages m.Ack
        = none ∧
      (∀ k : Nat, k ≠ m.Ack →
        tableLookup (listenStep s (ListenerEvent.delMessage m)).1.messages k
          = tableLookup s.messages k) := by
  refine ⟨rfl, ?_, ?_⟩
  · show tableLookup (tableDelete s.messages m.Ack) m.Ack = none
    rw [tableLookup_tableDelete]
    simp
  · intro k hk
    show tableLookup (tableDelete s.messages m.Ack) k = tableLookup s.messages k
    rw [tableLookup_tableDelete]
    simp [hk]

/-- Witness for C4 (its statement has a universally quantified implication):
the delivery and eviction at a concrete one-entry state. -/
theorem listen_finalized_delivered_and_evicted_witness :
    (listenStep ⟨[(42, NewTCPMessage 42)], []⟩
        (ListenerEvent.delMessage (NewTCPMessage 42))).1.c_messages
      = [NewTCPMessage 42] ∧
    tableLookup (listenStep ⟨[(42, NewTCPMessage 42)], []⟩
        (ListenerEvent.delMessage (NewTCPMessage 42))).1.messages 42 = none ∧
    tableLookup (listenStep ⟨[(42, NewTCPMessage 42)], []⟩
        (ListenerEvent.delMessage (NewTCPMessage 42))).1.messages 7
      = tableLookup [(42, NewTCPMessage 42)] 7 := by
  have h := listen_finalized_delivered_and_evicted
    ⟨[(42, NewTCPMessage 42)], []⟩ (NewTCPMessage 42)
  refine ⟨?_, h.2.1, h.2.2 7 (by decide)⟩
  rw [h.1]
  rfl

/-- The end-to-end capture pipeline of the listener on a finite stream of
decoded packets: each packet passes through the `readRAWSocket` filter; an
emitted packet is serviced by the `listen` loop's packet branch; when the
append makes the message report its disposition, the resulting
`c_del_message` arrival is serviced by the `listen` loop's delMessage branch
(the channels are order-preserving point-to-point queues, so with a single
flow the disposition is serviced before the next packet). -/
def runCapture (port : Nat) : ListenerState → List Packet → ListenerState
  | s, [] => s
  | s, pkt :: rest =>
    if readRAWSocketEmits port pkt then
      match listenStep s (ListenerEvent.packet pkt) with
      | (s1, some m) =>
        runCapture port (listenStep s1 (ListenerEvent.delMessage m)).1 rest
      | (s1, none) => runCapture port s1 rest
    else
      runCapture port s rest

/-- `Receive`: the blocking read `<-t.c_messages`, i.e. the oldest message on
the delivery queue (or `none` when no message has been delivered). -/
def Receive (s : ListenerState) : Option TCPMessage :=
  s.c_messages.head?

/-- The first packet of the §8 FlowKey-42 scenario: payload `"GET /"`, push
flag unset, Ack 42, destination port 80. -/
def scenarioPacket1 : Packet :=
  ⟨[Header.other, Header.tcp ⟨0, 80, 0, 42, 0⟩], "GET /"⟩

/-- The second packet of the §8 FlowKey-42 scenario: payload
`" HTTP/1.1\r\n\r\n"`, push flag set, Ack 42, destination port 80. -/
def scenarioPacket2 : Packet :=
  ⟨[Header.other, Header.tcp ⟨0, 80, 8, 42, 0⟩], " HTTP/1.1\r\n\r\n"⟩

/-- C3 counterexample: capturing the two FlowKey-42 scenario packets on port
80 delivers a message whose buffer is `" HTTP/1.1\r\n\r\n"`, not
`"GET / HTTP/1.1\r\n\r\n"` as the claim states: the first packet has the push
flag unset, so `readRAWSocket` drops it before it can reach the message. -/
theorem scenario_flowkey42_buffer_counterexample :
    Option.map TCPMessage.buffer
        (Receive (runCapture 80 initListenerState
          [scenarioPacket1, scenarioPacket2]))
      ≠ some "GET / HTTP/1.1\r\n\r\n" := by
  intro h
  have hrun : Receive (runCapture 80 initListenerState
      [scenarioPacket1, scenarioPacket2])
      = some ⟨42, " HTTP/1.1\r\n\r\n", MsgStatus.Completed, true⟩ := rfl
  rw [hrun] at h
  exact absurd h (by decide)

/-- C3 amended: with the two FlowKey-42 scenario packets, the first (push flag
unset) is silently dropped by the `readRAWSocket` filter, and the delivered
message has buffer `" HTTP/1.1\r\n\r\n"` (the second payload alone) and
status `Completed`. -/
theorem scenario_flowkey42_delivery :
    readRAWSocketEmits 80 scenarioPacket1 = false ∧
      Receive (runCapture 80 initListenerState
          [scenarioPacket1, scenarioPacket2])
        = some ⟨42, " HTTP/1.1\r\n\r\n", MsgStatus.Completed, true⟩ :=
  ⟨rfl, rfl⟩

/-- The listener record as constructed by `RAWTCPListen`: the fields of
`RAWTCPListener` consulted by the startup path (`device` as stored from the
constructor argument, `port`). -/
structure RAWTCPListener where
  device : String
  port : Nat
  deriving Repr, DecidableEq

/-- Go's conversion `string(i)` applied to a non-negative integer, as used in
`"tcp dst port " + string(t.port)`: it yields the one-character string holding
the Unicode code point `i` (the replacement character U+FFFD when `i` is not a
valid code point) — not the decimal rendering of `i`. -/
def goStringOfInt (i : Nat) : String :=
  if i.isValidChar then String.mk [Char.ofNat i] else String.mk [Char.ofNat 0xFFFD]

/-- The filter expression `startSniffer` actually passes to `Setfilter`:
`"tcp dst port " + string(t.port)`. -/
def setfilterExpr (port : Nat) : String :=
  "tcp dst port " ++ goStringOfInt port

/-- The filter expression described by the specification (for the refinement
comparison): `"tcp dst port "` followed by the decimal rendering of the
port. -/
def specFilterExpr (port : Nat) : String :=
  "tcp dst port " ++ toString port

/-- The operations `startSniffer` performs against the pcap library and the
process, in order. The first argument of `setfilter` records whether the call
is made on the handle returned by an `Openlive` that reported an error.
`fatalExit` is `log.Fatal`: it terminates the process, so it is always the
last operation of a trace. -/
inductive SnifferOp where
  | findalldevs
  | openlive (iface : String) (snaplen : Nat)
  | setfilter (onFailedHandle : Bool) (expr : String)
  | fatalExit (diag : String)
  deriving Repr, DecidableEq

/-- The pcap environment at startup: whether `Findalldevs` fails, the
enumerated device names it otherwise returns (the resolution loop reads
`device.Name`), and whether `Openlive` fails on the chosen interface. -/
structure PcapWorld where
  findalldevsFails : Bool
  devices : List String
  openliveFails : Bool
  deriving Repr, DecidableEq

/-- The device-resolution loop of `startSniffer`: `networkInterface` starts as
`""` and becomes the name of the first enumerated device whose `Name` equals
the globally configured `Settings.Device` (exact match only; the loop breaks
at the first match). -/
def resolveDevice (devices : List String) (settingsDevice : String) : String :=
  match devices.find? (fun d => d == settingsDevice) with
  | some d => d
  | none => ""

/-- The trace of operations performed by `startSniffer` on a listener `t`.
Device resolution consults only the global `Settings.Device` (never the
stored `t.device`); the filter expression uses `t.port`. Two quirks of the
source are kept faithfully: `Setfilter` is called before the `err` check that
follows `Openlive`, and the filter string is built with Go's `string(int)`
conversion. -/
def startSniffer (t : RAWTCPListener) (settingsDevice : String)
    (w : PcapWorld) : List SnifferOp :=
  if w.findalldevsFails then
    [SnifferOp.findalldevs,
     SnifferOp.fatalExit "Error while getting device list"]
  else
    let networkInterface := resolveDevice w.devices settingsDevice
    if networkInterface = "" then
      [SnifferOp.findalldevs,
       SnifferOp.fatalExit ("Could not find network interface " ++ settingsDevice)]
    else if w.openliveFails then
      [SnifferOp.findalldevs,
       SnifferOp.openlive networkInterface 4026,
       SnifferOp.setfilter true (setfilterExpr t.port),
       SnifferOp.fatalExit "Error while trying to listen"]
    else
      [SnifferOp.findalldevs,
       SnifferOp.openlive networkInterface 4026,
       SnifferOp.setfilter false (setfilterExpr t.port)]

/-- Whether the startup trace ended in `log.Fatal`, i.e. the process
terminated during `startSniffer`. -/
def startupFatal (t : RAWTCPListener) (settingsDevice : String)
    (w : PcapWorld) : Bool :=
  (startSniffer t settingsDevice w).any fun op =>
    match op with
    | SnifferOp.fatalExit _ => true
    | _ => false

/-- `RAWTCPListen`: stores the `device` and `port` arguments in the listener
and runs `startSniffer` before starting the `listen` and `readRAWSocket`
goroutines; a fatal startup terminates the process and the constructor never
returns (`none`). -/
def RAWTCPListen (device : String) (port : Nat) (settingsDevice : String)
    (w : PcapWorld) : Option RAWTCPListener :=
  if startupFatal ⟨device, port⟩ settingsDevice w then none
  else some ⟨device, port⟩

/-- The messages delivered by a listener over a finite packet stream: `none`
when startup was fatal (the process exited before the capture goroutines
started, so nothing is ever delivered), else the delivery queue produced by
the capture pipeline. -/
def RAWTCPListenDelivered (device : String) (port : Nat)
    (settingsDevice : String) (w : PcapWorld) (packets : List Packet) :
    Option (List TCPMessage) :=
  match RAWTCPListen device port settingsDevice w with
  | none => none
  | some l => some (runCapture l.port initListenerState packets).c_messages

/-- C6: when the configured device name is not an exact match of any name in
the enumerated device list, `startSniffer` reaches `log.Fatal` with a
diagnostic naming the device before any capture begins (the trace contains no
`Openlive` and ends at the fatal exit), and no message is ever delivered for
any packet stream. -/
theorem device_not_found_fatal (t : RAWTCPListener) (settingsDevice : String)
    (w : PcapWorld) (hfind : w.findalldevsFails = false)
    (hdev : settingsDevice ∉ w.devices) :
    startSniffer t settingsDevice w
        = [SnifferOp.findalldevs,
           SnifferOp.fatalExit
             ("Could not find network interface " ++ settingsDevice)] ∧
      (∀ iface snaplen : _, SnifferOp.openlive iface snaplen
          ∉ startSniffer t settingsDevice w) ∧
      (∀ packets : List Packet,
        RAWTCPListenDelivered t.device t.port settingsDevice w packets = none) := by
  have hres : resolveDevice w.devices settingsDevice = "" := by
    unfold resolveDevice
    have : w.devices.find? (fun d => d == settingsDevice) = none := by
      rw [List.find?_eq_none]
      intro x hx
      simp only [beq_iff_eq]
      intro hxeq
      exact hdev (hxeq ▸ hx)
    rw [this]
  have htrace : startSniffer t settingsDevice w
      = [SnifferOp.findalldevs,
         SnifferOp.fatalExit
           ("Could not find network interface " ++ settingsDevice)] := by
    unfold startSniffer
    rw [hfind]
    simp [hres]
  refine ⟨htrace, ?_, ?_⟩
  · intro iface snaplen hmem
    rw [htrace] at hmem
    rcases List.mem_cons.mp hmem with h | h
    · exact SnifferOp.noConfusion h
    · rcases List.mem_cons.mp h with h2 | h2
      · exact SnifferOp.noConfusion h2
      · exact absurd h2 (List.not_mem_nil _)
  · intro packets
    unfold RAWTCPListenDelivered RAWTCPListen
    have hfatal : startupFatal ⟨t.device, t.port⟩ settingsDevice w = true := by
      unfold startupFatal
      have heta : (⟨t.device, t.port⟩ : RAWTCPListener) = t := rfl
      rw [heta, htrace]
      rfl
    rw [hfatal]
    rfl

/-- Witness for C6: a concrete world whose device list does not contain the
configured name `"eth0"` yields the fatal trace and no delivery. -/
theorem device_not_found_fatal_witness :
    startSniffer ⟨"eth0", 80⟩ "eth0" ⟨false, ["lo", "wlan0"], false⟩
        = [SnifferOp.findalldevs,
           SnifferOp.fatalExit ("Could not find network interface " ++ "eth0")] ∧
      (∀ iface snaplen : _, SnifferOp.openlive iface snaplen
          ∉ startSniffer ⟨"eth0", 80⟩ "eth0" ⟨false, ["lo", "wlan0"], false⟩) ∧
      (∀ packets : List Packet,
        RAWTCPListenDelivered (RAWTCPListener.mk "eth0" 80).device
          (RAWTCPListener.mk "eth0" 80).port "eth0"
          ⟨false, ["lo", "wlan0"], false⟩ packets = none) :=
  device_not_found_fatal ⟨"eth0", 80⟩ "eth0" ⟨false, ["lo", "wlan0"], false⟩
    rfl (by decide)

/-- C7 evidence: for configured port 80, `startSniffer` builds the filter
expression with Go's `string(int)` conversion, yielding `"tcp dst port P"`
(U+0050, the code point 80) rather than the decimal `"tcp dst port 80"` that
the specification's "TCP destined to the configured port" filter requires. -/
theorem setfilter_expression_not_decimal :
    setfilterExpr 80 = "tcp dst port P" ∧
      specFilterExpr 80 = "tcp dst port 80" ∧
      setfilterExpr 80 ≠ specFilterExpr 80 := by
  refine ⟨?_, ?_, ?_⟩ <;> decide

/-- C8 evidence: when `Openlive` reports an error on the resolved interface,
the `startSniffer` trace shows `Setfilter` invoked on the failed handle
before the fatal exit, because the source checks `err` only after the
`h.Setfilter` call. -/
theorem openlive_failure_setfilter_before_fatal :
    startSniffer ⟨"eth0", 80⟩ "eth0" ⟨false, ["eth0"], true⟩
      = [SnifferOp.findalldevs,
         SnifferOp.openlive "eth0" 4026,
         SnifferOp.setfilter true (setfilterExpr 80),
         SnifferOp.fatalExit "Error while trying to listen"] := by
  decide

/-- C10: the `device` argument of `RAWTCPListen` is stored in the constructed
listener but never consulted during capture setup: for any two values of the
argument (all other state equal), the `startSniffer` trace — device
resolution, the fatal device-not-found check, filter installation — and the
delivered messages are identical, because `startSniffer` matches the
enumerated devices against the global `Settings.Device`; the argument is
merely recorded in the listener's `device` field. -/
theorem device_argument_not_consulted (d1 d2 : String) (port : Nat)
    (settingsDevice : String) (w : PcapWorld) (packets : List Packet) :
    startSniffer ⟨d1, port⟩ settingsDevice w
        = startSniffer ⟨d2, port⟩ settingsDevice w ∧
      RAWTCPListenDelivered d1 port settingsDevice w packets
        = RAWTCPListenDelivered d2 port settingsDevice w packets ∧
      Option.map RAWTCPListener.device (RAWTCPListen d1 port settingsDevice w)
        = if startupFatal ⟨d1, port⟩ settingsDevice w then none else some d1 := by
  refine ⟨rfl, ?_, ?_⟩
  · unfold RAWTCPListenDelivered RAWTCPListen
    by_cases hf : startupFatal ⟨d1, port⟩ settingsDevice w = true
    · have hf2 : startupFatal ⟨d2, port⟩ settingsDevice w = true := hf
      rw [if_pos hf, if_pos hf2]
    · have hf2 : ¬ startupFatal ⟨d2, port⟩ settingsDevice w = true := hf
      rw [if_neg hf, if_neg hf2]
  · unfold RAWTCPListen
    by_cases hf : startupFatal ⟨d1, port⟩ settingsDevice w = true
    · rw [if_pos hf, if_pos hf]
      rfl
    · rw [if_neg hf, if_neg hf]
      rfl

end Gor
